import Mathlib

/-!
Verification of the N64 save-converter core (Go sources `main.go` and the
updated `main.go` shipped as `unnamed/part_000`).

Bytes are modelled as `Nat` (each < 256 where it matters), files as
`List Nat`, and fallible operations as `Except Err _`.  The destination
file of a streaming conversion is modelled explicitly as the list of
bytes written to it, wrapped in `Option` (`none` = the file was never
created).
-/

/-- Error taxonomy of the spec (§7).  The Go code raises `fmt.Errorf`
strings; each constructor names the corresponding raise site:
`misalignedSaveData` is the wrapped `ErrUnexpectedEOF` that
`io.ReadFull` returns when 1–3 trailing bytes remain,
`emptySourceFile` is "Error source file is empty" in `copyFile`, and
`unsupportedCartridgeFormat` carries the offending magic bytes that
`detectRomFormat` formats with `%x`. -/
inductive Err where
  | ioFailure : Err
  | headerTruncated : Err
  | unsupportedCartridgeFormat : List Nat → Err
  | misalignedSaveData : Err
  | emptySourceFile : Err
deriving DecidableEq, Repr

instance {ε α : Type} [DecidableEq ε] [DecidableEq α] : DecidableEq (Except ε α) := fun x y =>
  match x, y with
  | .ok a, .ok b => if h : a = b then .isTrue (by rw [h]) else .isFalse (by simp [h])
  | .error a, .error b => if h : a = b then .isTrue (by rw [h]) else .isFalse (by simp [h])
  | .ok _, .error _ => .isFalse (by simp)
  | .error _, .ok _ => .isFalse (by simp)

/-- The three cartridge byte orderings (`romFormats` keys in the Go code). -/
inductive RomMode where
  | z64 : RomMode
  | n64 : RomMode
  | v64 : RomMode
deriving DecidableEq, Repr

/-- Magic bytes of each mode (`romFormats` in the Go code). -/
def romMagic : RomMode → List Nat
  | .z64 => [0x80, 0x37, 0x12, 0x40]
  | .n64 => [0x40, 0x12, 0x37, 0x80]
  | .v64 => [0x37, 0x80, 0x40, 0x12]

/-- Embeds `detectRomFormat`: match the first 4 header bytes against
the three magic patterns (the Go map iteration order is irrelevant
because the patterns are pairwise distinct); no match is an
unsupported-format error carrying the offending bytes. -/
def detectRomFormat (magicBytes : List Nat) : Except Err RomMode :=
  if magicBytes = romMagic .z64 then .ok .z64
  else if magicBytes = romMagic .n64 then .ok .n64
  else if magicBytes = romMagic .v64 then .ok .v64
  else .error (.unsupportedCartridgeFormat magicBytes)

/-- Reverse each non-overlapping 4-byte group
(`binary.BigEndian.PutUint32(conv, binary.LittleEndian.Uint32(raw))`
in the `n64` branch of `convertHeaderEndianness`, and the body of the
`convertSaveFile` loop).  The Go call sites only ever pass lengths
that are multiples of the group size; a shorter tail is left as is. -/
def swap4 : List Nat → List Nat
  | a :: b :: c :: d :: rest => d :: c :: b :: a :: swap4 rest
  | l => l

/-- Reverse each non-overlapping 2-byte group
(`binary.BigEndian.PutUint16(conv, binary.LittleEndian.Uint16(raw))`
in the `v64` branch of `convertHeaderEndianness`). -/
def swap2 : List Nat → List Nat
  | a :: b :: rest => b :: a :: swap2 rest
  | l => l

/-- Embeds `convertHeaderEndianness`: normalize the 64-byte header to
big-endian order according to the detected mode. -/
def convertHeaderEndianness (rawHeader : List Nat) : RomMode → List Nat
  | .z64 => rawHeader
  | .n64 => swap4 rawHeader
  | .v64 => swap2 rawHeader

/-- ASCII bytes kept by the title cleaner: `A`–`Z`, `a`–`z`, `0`–`9`,
space. -/
def isAllowedTitleByte (c : Nat) : Bool :=
  (65 ≤ c && c ≤ 90) || (97 ≤ c && c ≤ 122) || (48 ≤ c && c ≤ 57) || c == 32

/-- Embeds the Go call that trims trailing 0x20 bytes from the title
field (a right-trim by the space character). -/
def trimTrailingSpaces (l : List Nat) : List Nat :=
  (l.reverse.dropWhile (fun c => c == 32)).reverse

/-- Embeds `extractCleanTitle`: bytes `[0x20, 0x34)` of the normalized header,
with trailing spaces stripped and every byte outside the allowed set
discarded.  The Go loop ranges over runes of the decoded string, but
every kept character is a single ASCII byte and every non-ASCII byte
decodes to a rune outside the kept set, so the byte-level filter is
exact. -/
def extractCleanTitle (convHeader : List Nat) : List Nat :=
  (trimTrailingSpaces ((convHeader.drop 0x20).take 20)).filter isAllowedTitleByte

/-- The header-processing part of `processRom`: detect the format from
the first 4 bytes, normalize the header, extract the clean title. -/
def processHeader (rawHeader : List Nat) : Except Err (List Nat) :=
  (detectRomFormat (rawHeader.take 4)).map
    (fun mode => extractCleanTitle (convertHeaderEndianness rawHeader mode))

/-- Embeds the read/swap loop of `convertSaveFile`, success value = bytes written:
`io.ReadFull` on 4 bytes either fills the buffer (swap the group and
continue), hits a clean EOF at 0 bytes (done), or returns
`ErrUnexpectedEOF` on a 1–3 byte tail (fail, modelled as
`misalignedSaveData`). -/
def convertSaveBytes : List Nat → Except Err (List Nat)
  | [] => .ok []
  | a :: b :: c :: d :: rest =>
      (convertSaveBytes rest).map (fun out => d :: c :: b :: a :: out)
  | _ => .error .misalignedSaveData

/-- The same loop with the destination file made explicit: the second
component is the content written to the output file so far (the Go
code writes each swapped group before reading the next). -/
def convertSaveChunksFS : List Nat → Except Err Unit × List Nat
  | [] => (.ok (), [])
  | a :: b :: c :: d :: rest =>
      let step := convertSaveChunksFS rest
      (step.1, d :: c :: b :: a :: step.2)
  | _ => (.error .misalignedSaveData, [])

/-- Embeds `convertSaveFile` with the destination file state: `os.Create`
unconditionally creates the destination before the loop, and nothing
deletes it on error, so the final file content is `some` of whatever
the loop wrote. -/
def convertSaveFileFS (data : List Nat) : Except Err Unit × Option (List Nat) :=
  ((convertSaveChunksFS data).1, some (convertSaveChunksFS data).2)

/-- Constant `fullmempakSize = 128 * 1024`. -/
def fullmempakSize : Nat := 131072

/-- Constant `mempakSize = 32 * 1024`. -/
def mempakSize : Nat := 32768

/-- Truncation step of `copyFile`: trim to `fullmempakSize` if larger. -/
def trimToCap (data : List Nat) : List Nat :=
  if data.length > fullmempakSize then data.take fullmempakSize else data

/-- Padding step of `copyFile`: zero-pad to `mempakSize` if not larger
than it (the Go code appends a zero-filled padding slice). -/
def padToUnit (d : List Nat) : List Nat :=
  if d.length ≤ mempakSize then d ++ List.replicate (mempakSize - d.length) 0 else d

/-- The truncate/pad preprocessing of `copyFile`, producing the unit
that gets tiled. -/
def normalizeUnit (data : List Nat) : List Nat := padToUnit (trimToCap data)

/-- Number of copies of the unit written by `copyFile`
(`numCopies := 1; if targetSize > fileSize, += (targetSize - fileSize) / fileSize`). -/
def copyNumCopies (data : List Nat) (targetSize : Nat) : Nat :=
  if targetSize > (normalizeUnit data).length
  then 1 + (targetSize - (normalizeUnit data).length) / (normalizeUnit data).length
  else 1

/-- Number of final zero bytes written by `copyFile`
(`bytesToPad := (targetSize - fileSize) % fileSize` when `targetSize > fileSize`). -/
def copyBytesToPad (data : List Nat) (targetSize : Nat) : Nat :=
  if targetSize > (normalizeUnit data).length
  then (targetSize - (normalizeUnit data).length) % (normalizeUnit data).length
  else 0

/-- Embeds `copyFile src dst targetSize` on the payload level:
`targetSize = 0` is a plain `io.Copy`; otherwise an empty payload is
rejected, the payload is trimmed/padded into a unit, the unit is
written `copyNumCopies` times and `copyBytesToPad` zero bytes complete
the container. -/
def copyFileBytes (data : List Nat) (targetSize : Nat) : Except Err (List Nat) :=
  if targetSize = 0 then .ok data
  else if data.length = 0 then .error .emptySourceFile
  else .ok ((List.replicate (copyNumCopies data targetSize) (normalizeUnit data)).flatten
            ++ List.replicate (copyBytesToPad data targetSize) 0)

/-! ### SHA-256 (the `crypto/sha256` call in `computeSHA256`)

Translated from the FIPS 180-4 algorithm that `crypto/sha256`
implements; 32-bit words are `Nat` reduced mod `2^32`. -/

/-- The word modulus `2^32`. -/
def M32 : Nat := 4294967296

/-- Rotate a 32-bit word right by `n` (for `w < 2^32`). -/
def rotr (n w : Nat) : Nat := (w / 2 ^ n + (w % 2 ^ n) * 2 ^ (32 - n)) % M32

/-- The eight working variables of the compression function
(`digest.h` in `crypto/sha256`). -/
structure Sha256State where
  a : Nat
  b : Nat
  c : Nat
  d : Nat
  e : Nat
  f : Nat
  g : Nat
  h : Nat
deriving DecidableEq, Repr

/-- Initial hash value H(0), written in decimal. -/
def sha256Init : Sha256State :=
  ⟨1779033703, 3144134277, 1013904242, 2773480762,
   1359893119, 2600822924, 528734635, 1541459225⟩

/-- The 64 round constants K, written in decimal. -/
def sha256K : List Nat :=
  [1116352408, 1899447441, 3049323471, 3921009573, 961987163, 1508970993,
   2453635748, 2870763221, 3624381080, 310598401, 607225278, 1426881987,
   1925078388, 2162078206, 2614888103, 3248222580, 3835390401, 4022224774,
   264347078, 604807628, 770255983, 1249150122, 1555081692, 1996064986,
   2554220882, 2821834349, 2952996808, 3210313671, 3336571891, 3584528711,
   113926993, 338241895, 666307205, 773529912, 1294757372, 1396182291,
   1695183700, 1986661051, 2177026350, 2456956037, 2730485921, 2820302411,
   3259730800, 3345764771, 3516065817, 3600352804, 4094571909, 275423344,
   430227734, 506948616, 659060556, 883997877, 958139571, 1322822218,
   1537002063, 1747873779, 1955562222, 2024104815, 2227730452, 2361852424,
   2428436474, 2756734187, 3204031479, 3329325298]

/-- The big Σ0 function. -/
def bigSigma0 (x : Nat) : Nat := (rotr 2 x).xor ((rotr 13 x).xor (rotr 22 x))

/-- The big Σ1 function. -/
def bigSigma1 (x : Nat) : Nat := (rotr 6 x).xor ((rotr 11 x).xor (rotr 25 x))

/-- The small σ0 function. -/
def smallSigma0 (x : Nat) : Nat := (rotr 7 x).xor ((rotr 18 x).xor (x / 2 ^ 3))

/-- The small σ1 function. -/
def smallSigma1 (x : Nat) : Nat := (rotr 17 x).xor ((rotr 19 x).xor (x / 2 ^ 10))

/-- Ch(x,y,z) = (x ∧ y) ⊕ (¬x ∧ z); bitwise NOT of a reduced word is
subtraction from `2^32 - 1`. -/
def chFun (x y z : Nat) : Nat := (x.land y).xor ((4294967295 - x % M32).land z)

/-- Maj(x,y,z) = (x ∧ y) ⊕ (x ∧ z) ⊕ (y ∧ z). -/
def majFun (x y z : Nat) : Nat := ((x.land y).xor (x.land z)).xor (y.land z)

/-- One compression round; `kw` is K(t) + W(t) mod 2^32. -/
def sha256Round (st : Sha256State) (kw : Nat) : Sha256State :=
  let t1 := (st.h + bigSigma1 st.e + chFun st.e st.f st.g + kw) % M32
  let t2 := (bigSigma0 st.a + majFun st.a st.b st.c) % M32
  ⟨(t1 + t2) % M32, st.a, st.b, st.c, (st.d + t1) % M32, st.e, st.f, st.g⟩

/-- Extend the 16-word block by `fuel` schedule words
(W(t) = σ1 W(t-2) + W(t-7) + σ0 W(t-15) + W(t-16)). -/
def sha256Extend (w : List Nat) : Nat → List Nat
  | 0 => w
  | fuel + 1 =>
      let l := w.length
      sha256Extend
        (w ++ [(smallSigma1 (w.getD (l - 2) 0) + w.getD (l - 7) 0 +
                smallSigma0 (w.getD (l - 15) 0) + w.getD (l - 16) 0) % M32]) fuel

/-- Compress one 16-word block into the running state. -/
def sha256Compress (st : Sha256State) (block : List Nat) : Sha256State :=
  let w := sha256Extend block 48
  let e := (w.zipWith (fun wi ki => (wi + ki) % M32) sha256K).foldl sha256Round st
  ⟨(st.a + e.a) % M32, (st.b + e.b) % M32, (st.c + e.c) % M32, (st.d + e.d) % M32,
   (st.e + e.e) % M32, (st.f + e.f) % M32, (st.g + e.g) % M32, (st.h + e.h) % M32⟩

/-- Fold the compression function over the message words, 16 at a time. -/
def sha256Blocks (st : Sha256State) : List Nat → Sha256State
  | w0 :: w1 :: w2 :: w3 :: w4 :: w5 :: w6 :: w7 ::
    w8 :: w9 :: w10 :: w11 :: w12 :: w13 :: w14 :: w15 :: rest =>
      sha256Blocks
        (sha256Compress st [w0, w1, w2, w3, w4, w5, w6, w7, w8, w9, w10, w11, w12, w13, w14, w15])
        rest
  | _ => st

/-- Big-endian 8-byte encoding of the 64-bit message bit length. -/
def be64Bytes (n : Nat) : List Nat :=
  [n / 2 ^ 56 % 256, n / 2 ^ 48 % 256, n / 2 ^ 40 % 256, n / 2 ^ 32 % 256,
   n / 2 ^ 24 % 256, n / 2 ^ 16 % 256, n / 2 ^ 8 % 256, n % 256]

/-- SHA-256 padding: append `0x80`, zero bytes to 56 mod 64, then the
bit length as 8 big-endian bytes. -/
def sha256Pad (msg : List Nat) : List Nat :=
  msg ++ 128 :: (List.replicate ((64 - (msg.length + 9) % 64) % 64) 0 ++ be64Bytes (8 * msg.length))

/-- Big-endian 32-bit words from the padded byte stream. -/
def bytesToWords : List Nat → List Nat
  | b0 :: b1 :: b2 :: b3 :: rest =>
      (b0 * 2 ^ 24 + b1 * 2 ^ 16 + b2 * 2 ^ 8 + b3) :: bytesToWords rest
  | _ => []

/-- SHA-256 of a byte sequence, as the final eight-word state. -/
def sha256Full (msg : List Nat) : Sha256State :=
  sha256Blocks sha256Init (bytesToWords (sha256Pad msg))

/-- Big-endian 4-byte encoding of a hash word. -/
def be32Bytes (n : Nat) : List Nat :=
  [n / 2 ^ 24 % 256, n / 2 ^ 16 % 256, n / 2 ^ 8 % 256, n % 256]

/-- The 32-byte SHA-256 digest (`hasher.Sum(nil)`). -/
def sha256Digest (msg : List Nat) : List Nat :=
  let st := sha256Full msg
  be32Bytes st.a ++ be32Bytes st.b ++ be32Bytes st.c ++ be32Bytes st.d ++
  be32Bytes st.e ++ be32Bytes st.f ++ be32Bytes st.g ++ be32Bytes st.h

/-- Uppercase hex digit for a nibble. -/
def hexDigitChar : Nat → Char
  | 0 => '0' | 1 => '1' | 2 => '2' | 3 => '3' | 4 => '4' | 5 => '5' | 6 => '6' | 7 => '7'
  | 8 => '8' | 9 => '9' | 10 => 'A' | 11 => 'B' | 12 => 'C' | 13 => 'D' | 14 => 'E' | 15 => 'F'
  | _ => '0'

/-- Uppercase hex rendering of a byte list, two digits per byte, no
separators (`fmt.Sprintf("%X", hashSum)`). -/
def bytesToHexUpper (l : List Nat) : List Char :=
  l.foldr (fun b acc => hexDigitChar (b / 16 % 16) :: hexDigitChar (b % 16) :: acc) []

/-- Embeds `computeSHA256`: whole-file SHA-256 rendered as uppercase hex. -/
def computeSHA256 (data : List Nat) : String :=
  String.mk (bytesToHexUpper (sha256Digest data))

/-- Uppercase hexadecimal characters. -/
def isUpperHexChar (c : Char) : Bool :=
  ('0' ≤ c && c ≤ '9') || ('A' ≤ c && c ≤ 'F')

/-- Title cleaning as the spec words it (refinement reference for the
source-derived `extractCleanTitle`): strip trailing space characters,
then retain only characters in the set A–Z, a–z, 0–9, space. -/
def specCleanTitle (field : List Nat) : List Nat :=
  (List.rdropWhile (fun c => c == 32) field).filter
    (fun c => decide ((65 ≤ c ∧ c ≤ 90) ∨ (97 ≤ c ∧ c ≤ 122) ∨ (48 ≤ c ∧ c ≤ 57) ∨ c = 32))

/-- Title bytes of the worked example in the spec: the 20-byte field
holding the ASCII text SUPER GAME!! followed by 8 padding spaces. -/
def demoTitleField : List Nat :=
  [83, 85, 80, 69, 82, 32, 71, 65, 77, 69, 33, 33, 32, 32, 32, 32, 32, 32, 32, 32]

/-- Expected clean title of the worked example, the ASCII text SUPER GAME. -/
def demoCleanTitle : List Nat := [83, 85, 80, 69, 82, 32, 71, 65, 77, 69]

/-- A 64-byte native-order header whose title field is the worked example. -/
def demoHeader : List Nat :=
  romMagic .z64 ++ List.replicate 28 0 ++ demoTitleField ++ List.replicate 12 0


/-! ### Helper lemmas -/

theorem swap4_swap4 : ∀ l : List Nat, swap4 (swap4 l) = l
  | [] => rfl
  | [_] => rfl
  | [_, _] => rfl
  | [_, _, _] => rfl
  | a :: b :: c :: d :: rest => by
      simp [swap4, swap4_swap4 rest]

theorem swap2_swap2 : ∀ l : List Nat, swap2 (swap2 l) = l
  | [] => rfl
  | [_] => rfl
  | a :: b :: rest => by
      simp [swap2, swap2_swap2 rest]

theorem swap4_length : ∀ l : List Nat, (swap4 l).length = l.length
  | [] => rfl
  | [_] => rfl
  | [_, _] => rfl
  | [_, _, _] => rfl
  | a :: b :: c :: d :: rest => by
      simp [swap4, swap4_length rest]

theorem convertSaveBytes_eq_swap4 :
    ∀ l : List Nat, l.length % 4 = 0 → convertSaveBytes l = .ok (swap4 l)
  | [], _ => rfl
  | [a], h => by simp at h
  | [a, b], h => by simp at h
  | [a, b, c], h => by simp at h
  | a :: b :: c :: d :: rest, h => by
      have h' : rest.length % 4 = 0 := by
        have hl : (a :: b :: c :: d :: rest).length = rest.length + 4 := by
          simp
        rw [hl] at h
        omega
      simp [convertSaveBytes, swap4, Except.map, convertSaveBytes_eq_swap4 rest h']

theorem convertSaveBytes_misaligned :
    ∀ l : List Nat, l.length % 4 ≠ 0 → convertSaveBytes l = .error .misalignedSaveData
  | [], h => absurd (by simp) h
  | [a], _ => rfl
  | [a, b], _ => rfl
  | [a, b, c], _ => rfl
  | a :: b :: c :: d :: rest, h => by
      have h' : rest.length % 4 ≠ 0 := by
        intro hr
        apply h
        have hl : (a :: b :: c :: d :: rest).length = rest.length + 4 := by
          simp
        rw [hl]
        omega
      simp [convertSaveBytes, Except.map, convertSaveBytes_misaligned rest h']

theorem trimToCap_length (data : List Nat) :
    (trimToCap data).length = min data.length 131072 := by
  unfold trimToCap fullmempakSize
  split_ifs with h
  · simp [List.length_take]
    omega
  · omega

theorem padToUnit_length (d : List Nat) :
    (padToUnit d).length = if d.length ≤ 32768 then 32768 else d.length := by
  unfold padToUnit mempakSize
  split_ifs with h
  · simp [List.length_append, List.length_replicate]
    omega
  · rfl

theorem normalizeUnit_length (data : List Nat) :
    (normalizeUnit data).length =
      if data.length > fullmempakSize then fullmempakSize
      else if data.length ≤ mempakSize then mempakSize
      else data.length := by
  unfold normalizeUnit fullmempakSize mempakSize
  rw [padToUnit_length, trimToCap_length]
  split_ifs <;> omega

theorem normalizeUnit_bounds (data : List Nat) :
    0 < (normalizeUnit data).length ∧ (normalizeUnit data).length ≤ fullmempakSize := by
  rw [normalizeUnit_length]
  unfold fullmempakSize mempakSize
  split_ifs <;> constructor <;> omega

theorem normalizeUnit_of_mempak (data : List Nat) (h : data.length = mempakSize) :
    normalizeUnit data = data := by
  have h32 : data.length = 32768 := h
  have ht : trimToCap data = data := by
    unfold trimToCap fullmempakSize
    rw [if_neg (by omega)]
  unfold normalizeUnit
  rw [ht]
  unfold padToUnit mempakSize
  rw [if_pos (by omega), h32]
  simp

theorem copyNumCopies_eq (data : List Nat) (t : Nat)
    (h0 : 0 < (normalizeUnit data).length) (hle : (normalizeUnit data).length ≤ t) :
    copyNumCopies data t = t / (normalizeUnit data).length := by
  unfold copyNumCopies
  split_ifs with h
  · rw [Nat.div_eq_sub_div h0 h.le]
    omega
  · have he : (normalizeUnit data).length = t := by omega
    rw [he, Nat.div_self (by omega)]

theorem copyBytesToPad_eq (data : List Nat) (t : Nat)
    (hle : (normalizeUnit data).length ≤ t) :
    copyBytesToPad data t = t % (normalizeUnit data).length := by
  unfold copyBytesToPad
  split_ifs with h
  · exact (Nat.mod_eq_sub_mod h.le).symm
  · have he : (normalizeUnit data).length = t := by omega
    rw [he, Nat.mod_self]

theorem hexDigitChar_hex (n : Nat) : isUpperHexChar (hexDigitChar n) = true := by
  unfold hexDigitChar
  split <;> decide

theorem bytesToHexUpper_all (l : List Nat) :
    (bytesToHexUpper l).all isUpperHexChar = true := by
  induction l with
  | nil => rfl
  | cons b rest ih =>
      simp [bytesToHexUpper, hexDigitChar_hex] at ih ⊢
      exact ih

theorem bytesToHexUpper_length (l : List Nat) :
    (bytesToHexUpper l).length = 2 * l.length := by
  induction l with
  | nil => rfl
  | cons b rest ih =>
      simp [bytesToHexUpper] at ih ⊢
      omega

theorem sha256Digest_length (msg : List Nat) : (sha256Digest msg).length = 32 := by
  simp [sha256Digest, be32Bytes]

theorem isAllowedTitleByte_eq (c : Nat) :
    isAllowedTitleByte c
      = decide ((65 ≤ c ∧ c ≤ 90) ∨ (97 ≤ c ∧ c ≤ 122) ∨ (48 ≤ c ∧ c ≤ 57) ∨ c = 32) := by
  rw [Bool.eq_iff_iff]
  simp [isAllowedTitleByte]
  tauto

theorem convertSaveChunksFS_misaligned :
    ∀ l : List Nat, l.length % 4 ≠ 0 →
      convertSaveChunksFS l
        = (.error .misalignedSaveData, swap4 (l.take (4 * (l.length / 4))))
  | [], h => absurd (by simp) h
  | [a], _ => by simp [convertSaveChunksFS, swap4]
  | [a, b], _ => by simp [convertSaveChunksFS, swap4]
  | [a, b, c], _ => by simp [convertSaveChunksFS, swap4]
  | a :: b :: c :: d :: rest, h => by
      have hl : (a :: b :: c :: d :: rest).length = rest.length + 4 := by
        simp
      have h' : rest.length % 4 ≠ 0 := by
        intro hr
        apply h
        rw [hl]
        omega
      have htake : (a :: b :: c :: d :: rest).take (4 * ((a :: b :: c :: d :: rest).length / 4))
          = a :: b :: c :: d :: rest.take (4 * (rest.length / 4)) := by
        rw [hl]
        rw [show 4 * ((rest.length + 4) / 4)
              = Nat.succ (Nat.succ (Nat.succ (Nat.succ (4 * (rest.length / 4))))) by omega]
        simp [List.take_succ_cons]
      rw [htake]
      simp [convertSaveChunksFS, swap4, convertSaveChunksFS_misaligned rest h']

/-! ### Claim theorems -/

/-- C1: the content hash the identifier returns is the SHA-256 digest
of the entire input rendered as 64 uppercase hexadecimal characters
with no separators, it is deterministic, and the zero-length input
hashes to the well-known empty-input digest. -/
theorem computeSHA256_contract :
    (∀ data : List Nat, (computeSHA256 data).length = 64 ∧
        (computeSHA256 data).toList.all isUpperHexChar = true) ∧
    (∀ data : List Nat, computeSHA256 data = computeSHA256 data) ∧
    computeSHA256 [] = "E3B0C44298FC1C149AFBF4C8996FB92427AE41E4649B934CA495991B7852B855" := by
  refine ⟨fun data => ⟨?_, ?_⟩, fun data => rfl, by decide⟩
  · show (String.mk (bytesToHexUpper (sha256Digest data))).length = 64
    have h1 : (String.mk (bytesToHexUpper (sha256Digest data))).length
        = (bytesToHexUpper (sha256Digest data)).length := rfl
    rw [h1, bytesToHexUpper_length, sha256Digest_length]
  · show (String.mk (bytesToHexUpper (sha256Digest data))).toList.all isUpperHexChar = true
    have h1 : (String.mk (bytesToHexUpper (sha256Digest data))).toList
        = bytesToHexUpper (sha256Digest data) := rfl
    rw [h1, bytesToHexUpper_all]

/-- C3: the clean title of a normalized 64-byte header is bytes
0x20–0x33 with trailing spaces stripped first and every character
outside A–Z, a–z, 0–9, space then discarded (exactly the spec's rule),
and the worked example field SUPER GAME!! plus padding spaces yields
SUPER GAME. -/
theorem extractCleanTitle_contract :
    (∀ h : List Nat, h.length = 64 →
        extractCleanTitle h = specCleanTitle ((h.drop 0x20).take 20)) ∧
    extractCleanTitle demoHeader = demoCleanTitle := by
  constructor
  · intro h _
    unfold extractCleanTitle specCleanTitle trimTrailingSpaces List.rdropWhile
    rw [funext isAllowedTitleByte_eq]
  · decide

/-- Witness for C3 at the demo header. -/
theorem extractCleanTitle_contract_witness :
    demoHeader.length = 64 ∧
    extractCleanTitle demoHeader = specCleanTitle ((demoHeader.drop 0x20).take 20) :=
  ⟨by decide, extractCleanTitle_contract.1 demoHeader (by decide)⟩

/-- C4: byte-order detection succeeds exactly on the three magic
sequences, mapping each to its mode, and any other first-4-bytes value
(for example all zeros) fails with the unsupported-format error and
yields no fallback mode or default title. -/
theorem detectRomFormat_contract :
    (∀ b : List Nat, b.length = 4 →
        ((detectRomFormat b = .ok .z64 ↔ b = [0x80, 0x37, 0x12, 0x40]) ∧
         (detectRomFormat b = .ok .n64 ↔ b = [0x40, 0x12, 0x37, 0x80]) ∧
         (detectRomFormat b = .ok .v64 ↔ b = [0x37, 0x80, 0x40, 0x12]) ∧
         (b ≠ [0x80, 0x37, 0x12, 0x40] → b ≠ [0x40, 0x12, 0x37, 0x80] →
          b ≠ [0x37, 0x80, 0x40, 0x12] →
          detectRomFormat b = .error (.unsupportedCartridgeFormat b)))) ∧
    processHeader (List.replicate 64 0) = .error (.unsupportedCartridgeFormat [0, 0, 0, 0]) := by
  constructor
  · intro b _
    unfold detectRomFormat romMagic
    split_ifs with h1 h2 h3 <;> simp_all
  · decide

/-- Witness for C4 at the all-zero magic. -/
theorem detectRomFormat_contract_witness :
    ([0, 0, 0, 0] : List Nat).length = 4 ∧
    detectRomFormat [0, 0, 0, 0] = .error (.unsupportedCartridgeFormat [0, 0, 0, 0]) :=
  ⟨by decide,
   (detectRomFormat_contract.1 [0, 0, 0, 0] (by decide)).2.2.2 (by decide) (by decide) (by decide)⟩

/-- C5: header normalization is the identity in Native mode and a
self-inverse in WordSwapped (4-byte-group reversal) and
HalfwordSwapped (2-byte-group reversal) modes. -/
theorem convertHeaderEndianness_contract (h : List Nat) (hlen : h.length = 64) :
    convertHeaderEndianness h .z64 = h ∧
    convertHeaderEndianness (convertHeaderEndianness h .n64) .n64 = h ∧
    convertHeaderEndianness (convertHeaderEndianness h .v64) .v64 = h :=
  ⟨rfl, swap4_swap4 h, swap2_swap2 h⟩

/-- Witness for C5 at an explicit 64-byte header. -/
theorem convertHeaderEndianness_contract_witness :
    (List.range 64).length = 64 ∧
    (convertHeaderEndianness (List.range 64) .z64 = List.range 64 ∧
     convertHeaderEndianness (convertHeaderEndianness (List.range 64) .n64) .n64 = List.range 64 ∧
     convertHeaderEndianness (convertHeaderEndianness (List.range 64) .v64) .v64 = List.range 64) :=
  ⟨by decide, convertHeaderEndianness_contract (List.range 64) (by decide)⟩

/-- C6: on a payload whose length is a multiple of 4 the byte-swap
conversion succeeds, and applying it to its own output returns the
original payload (the conversion is an involution there). -/
theorem convertSave_roundtrip (data : List Nat) (h : data.length % 4 = 0) :
    ∃ out, convertSaveBytes data = .ok out ∧ convertSaveBytes out = .ok data := by
  refine ⟨swap4 data, convertSaveBytes_eq_swap4 data h, ?_⟩
  have h2 : (swap4 data).length % 4 = 0 := by
    rw [swap4_length]
    exact h
  rw [convertSaveBytes_eq_swap4 (swap4 data) h2, swap4_swap4]

/-- Witness for C6 at a 4-byte payload. -/
theorem convertSave_roundtrip_witness :
    ([1, 2, 3, 4] : List Nat).length % 4 = 0 ∧
    ∃ out, convertSaveBytes [1, 2, 3, 4] = .ok out ∧ convertSaveBytes out = .ok [1, 2, 3, 4] :=
  ⟨by decide, convertSave_roundtrip [1, 2, 3, 4] (by decide)⟩

/-- C7: the byte-swap conversion fails with MisalignedSaveData exactly
on payloads whose length is not a multiple of 4 (the incomplete group
is neither dropped nor padded) and succeeds on every multiple-of-4
payload. -/
theorem convertSave_alignment (data : List Nat) :
    (data.length % 4 ≠ 0 → convertSaveBytes data = .error .misalignedSaveData) ∧
    (data.length % 4 = 0 → ∃ out, convertSaveBytes data = .ok out) :=
  ⟨convertSaveBytes_misaligned data,
   fun h => ⟨swap4 data, convertSaveBytes_eq_swap4 data h⟩⟩

/-- Witness for C7 at a misaligned and an aligned payload. -/
theorem convertSave_alignment_witness :
    (([1, 2, 3] : List Nat).length % 4 ≠ 0 ∧
     convertSaveBytes [1, 2, 3] = .error .misalignedSaveData) ∧
    (([1, 2, 3, 4] : List Nat).length % 4 = 0 ∧
     ∃ out, convertSaveBytes [1, 2, 3, 4] = .ok out) :=
  ⟨⟨by decide, (convertSave_alignment [1, 2, 3]).1 (by decide)⟩,
   ⟨by decide, (convertSave_alignment [1, 2, 3, 4]).2 (by decide)⟩⟩

/-- C8: a zero-length payload is rejected with EmptySourceFile exactly
when a size normalization target is set, while the direct-copy kind
(target 0) passes any payload through unchanged, so an empty input
gives an empty output. -/
theorem copyFile_empty_policy :
    (∀ t : Nat, copyFileBytes [] t = .error .emptySourceFile ↔ 0 < t) ∧
    copyFileBytes [] 0 = .ok [] ∧
    (∀ data : List Nat, copyFileBytes data 0 = .ok data) := by
  refine ⟨fun t => ?_, rfl, fun data => rfl⟩
  cases t with
  | zero => simp [copyFileBytes]
  | succ n => simp [copyFileBytes]

/-- C10: a zero-length input under the byte-swap kind succeeds (the
first 4-byte read hits a clean end of file) and produces a zero-length
destination file. -/
theorem convertSave_empty_ok :
    convertSaveFileFS [] = (.ok (), some []) ∧ convertSaveBytes [] = .ok [] := by
  decide

/-- C2: under the size-normalized kind (target 131072) every non-empty
payload yields an output of exactly 131072 bytes consisting of the
unit (payload truncated to 131072 if longer, zero-padded to 32768 if
not above it) repeated for as many whole copies as fit, with the
remainder zero-filled; a payload of exactly 32768 bytes tiles to four
copies with no padding. -/
theorem copyFile_tiling (data : List Nat) (hne : data ≠ []) :
    ∃ out, copyFileBytes data fullmempakSize = .ok out ∧
      out.length = fullmempakSize ∧
      out = (List.replicate (fullmempakSize / (normalizeUnit data).length)
               (normalizeUnit data)).flatten
            ++ List.replicate (fullmempakSize % (normalizeUnit data).length) 0 ∧
      (data.length = mempakSize → out = (List.replicate 4 data).flatten) := by
  obtain ⟨hL0, hLle⟩ := normalizeUnit_bounds data
  have hres : copyFileBytes data fullmempakSize
      = .ok ((List.replicate (fullmempakSize / (normalizeUnit data).length)
               (normalizeUnit data)).flatten
             ++ List.replicate (fullmempakSize % (normalizeUnit data).length) 0) := by
    unfold copyFileBytes
    rw [if_neg (by unfold fullmempakSize; omega),
        if_neg (fun h0 => hne (List.length_eq_zero.mp h0)),
        copyNumCopies_eq data fullmempakSize hL0 hLle,
        copyBytesToPad_eq data fullmempakSize hLle]
  refine ⟨_, hres, ?_, rfl, ?_⟩
  · have hflat : ((List.replicate (fullmempakSize / (normalizeUnit data).length)
          (normalizeUnit data)).flatten).length
        = fullmempakSize / (normalizeUnit data).length * (normalizeUnit data).length := by
      simp [List.length_flatten, List.map_replicate, List.sum_replicate, smul_eq_mul]
    rw [List.length_append, hflat, List.length_replicate, mul_comm]
    exact Nat.div_add_mod fullmempakSize (normalizeUnit data).length
  · intro hm
    rw [normalizeUnit_of_mempak data hm, hm]
    simp [fullmempakSize, mempakSize]

/-- Witness for C2 at a one-byte payload. -/
theorem copyFile_tiling_witness :
    ([7] : List Nat) ≠ [] ∧
    (∃ out, copyFileBytes [7] fullmempakSize = .ok out ∧
      out.length = fullmempakSize ∧
      out = (List.replicate (fullmempakSize / (normalizeUnit [7]).length)
               (normalizeUnit [7])).flatten
            ++ List.replicate (fullmempakSize % (normalizeUnit [7]).length) 0 ∧
      (([7] : List Nat).length = mempakSize → out = (List.replicate 4 [7]).flatten)) :=
  ⟨by decide, copyFile_tiling [7] (by decide)⟩

/-- C9 counterexample: on the 7-byte payload the byte-swap conversion
fails with MisalignedSaveData yet the destination file exists and
holds the 4 bytes written before the failure, so a failing
transformation does leave a partial destination file behind. -/
theorem convertSave_partial_output_counterexample :
    (convertSaveFileFS [1, 2, 3, 4, 5, 6, 7]).1 = .error .misalignedSaveData ∧
    (convertSaveFileFS [1, 2, 3, 4, 5, 6, 7]).2 = some [4, 3, 2, 1] ∧
    (convertSaveFileFS [1, 2, 3, 4, 5, 6, 7]).2 ≠ none ∧
    (convertSaveFileFS [1, 2, 3, 4, 5, 6, 7]).2 ≠ some [] := by
  decide

/-- C9 amended: when the byte-swap conversion fails on a misaligned
payload, the created destination file remains and contains exactly the
swapped complete 4-byte groups processed before the misaligned tail
(no deletion and no deferred finalization happen). -/
theorem convertSave_partial_output_amended (data : List Nat) (h : data.length % 4 ≠ 0) :
    (convertSaveFileFS data).1 = .error .misalignedSaveData ∧
    (convertSaveFileFS data).2 = some (swap4 (data.take (4 * (data.length / 4)))) := by
  unfold convertSaveFileFS
  rw [convertSaveChunksFS_misaligned data h]
  exact ⟨rfl, rfl⟩

/-- Witness for the amended C9 at the 7-byte payload. -/
theorem convertSave_partial_output_amended_witness :
    ([1, 2, 3, 4, 5, 6, 7] : List Nat).length % 4 ≠ 0 ∧
    ((convertSaveFileFS [1, 2, 3, 4, 5, 6, 7]).1 = .error .misalignedSaveData ∧
     (convertSaveFileFS [1, 2, 3, 4, 5, 6, 7]).2
       = some (swap4 (([1, 2, 3, 4, 5, 6, 7] : List Nat).take
           (4 * (([1, 2, 3, 4, 5, 6, 7] : List Nat).length / 4))))) :=
  ⟨by decide, convertSave_partial_output_amended [1, 2, 3, 4, 5, 6, 7] (by decide)⟩
